import Mathlib

/-!
PPR + Bitcoin portfolio analyzer: verification of the calculation logic.

This file is a shallow embedding, in Lean 4, of the calculation logic of the
`pprbitcoin` repository: the series aligner, the hybrid-portfolio simulation
loop `calcular_portfolio_hibrido`, and the metric formulas
(`retorno_total_pct`, `retorno_anualizado_pct`, volatility, Sharpe,
`max_drawdown_pct`) given in the specification document of the repository
(`spec.md`, section "Lógica de Cálculo").

Conventions of the embedding:
* Monetary amounts, prices and percentages are exact rationals `ℚ`
  (the repository mandates decimal arithmetic for the financial core);
  the annualized-return formula, which takes a real exponent, is embedded
  over `ℝ` with `Real.rpow`.
* `pandas.pct_change` leaves its first entry undefined (`NaN`, no prior
  observation).  The embedding represents that first entry as a zero return,
  i.e. the first row applies no price change to the initial allocations;
  every later entry is exactly `p[t]/p[t-1] - 1`.
* A float division whose divisor is zero does not produce a number
  (Python/NumPy raise or return a non-finite value), so the embedded
  Sharpe formula returns an `Option`, `none` standing for the non-finite
  outcome of dividing by a zero volatility.
-/

/-- A calendar date, `ano`-`mes`-`dia` (year-month-day). -/
structure Data where
  ano : ℕ
  mes : ℕ
  dia : ℕ
deriving DecidableEq, Repr

/-- The calendar month a date belongs to (year, month). -/
def Data.mesCalendario (d : Data) : ℕ × ℕ := (d.ano, d.mes)

/-- One row of the merged dataframe `df`: a date together with the PPR unit
price (`valor_quota`) and the Bitcoin price (`preco_eur`) observed on it. -/
structure LinhaAlinhada where
  data : Data
  valor_quota : ℚ
  preco_eur : ℚ
deriving DecidableEq, Repr

/-- First price recorded for a date in a series, if any (dates are unique in
the database schema of the repository: `UNIQUE(ppr_id, data)` and
`data ... UNIQUE`). -/
def precoEm (d : Data) : List (Data × ℚ) → Option ℚ
  | [] => none
  | (d', p) :: resto => if d' = d then some p else precoEm d resto

/-- Embeds `pd.merge(ppr_data, btc_data, on="data", how="inner")`: the aligned series
keeps exactly the dates present in both inputs, in the order of the left
(PPR) series, pairing each kept date with the two prices observed on it. -/
def merge_inner : List (Data × ℚ) → List (Data × ℚ) → List LinhaAlinhada
  | [], _ => []
  | (d, p) :: resto, btc =>
      match precoEm d btc with
      | some q => ⟨d, p, q⟩ :: merge_inner resto btc
      | none => merge_inner resto btc

/-- Embeds `Series.pct_change()`: entry `t ≥ 1` is `p[t]/p[t-1] - 1`; the first entry,
undefined in pandas (`NaN`), is embedded as a zero return (see the header). -/
def pct_change : List ℚ → List ℚ
  | [] => []
  | x :: xs => 0 :: List.zipWith (fun prev cur => cur / prev - 1) (x :: xs) xs

/-- The `rebalancing` argument of `calcular_portfolio_hibrido`
("mensal" | "trimestral" | "anual" | "nunca"). -/
inductive Rebalancing where
  | nunca
  | mensal
  | trimestral
  | anual
deriving DecidableEq, Repr

/-- Number of rows between two rebalances (the code treats each row of the
merged dataframe as one month). -/
def Rebalancing.periodo : Rebalancing → ℕ
  | .nunca => 0
  | .mensal => 1
  | .trimestral => 3
  | .anual => 12

/-- Modelled from the spec: the helper `should_rebalance(idx, rebalancing)`
is called by `calcular_portfolio_hibrido` but not defined anywhere in the
repository.  Per the specification, rebalancing is due when the elapsed time
since the last rebalance (or since the start) meets or exceeds the configured
period (1 / 3 / 12 months), and `nunca` never rebalances; with one row per
month and the row index as the clock this is `idx > 0 ∧ idx % periodo = 0`. -/
def should_rebalance (idx : ℕ) (rb : Rebalancing) : Bool :=
  match rb with
  | .nunca => false
  | rb => idx ≠ 0 && idx % rb.periodo == 0

/-- The parameters of `calcular_portfolio_hibrido` (the two dataframes
aside): Bitcoin percentage (0-100), initial investment, monthly
contribution, rebalancing frequency. -/
structure Parametros where
  btc_percentage : ℚ
  investimento_inicial : ℚ
  aportes_mensais : ℚ
  rebalancing : Rebalancing
deriving DecidableEq, Repr

/-- The mutable state of the simulation loop: the current value allocated to
the PPR (`ppr_allocation`) and to Bitcoin (`btc_allocation`). -/
structure Estado where
  ppr_allocation : ℚ
  btc_allocation : ℚ
deriving DecidableEq, Repr

/-- Initial split: `ppr = investimento_inicial * (1 - btc_percentage/100)`,
`btc = investimento_inicial * (btc_percentage/100)`. -/
def estadoInicial (p : Parametros) : Estado :=
  { ppr_allocation := p.investimento_inicial * (1 - p.btc_percentage / 100)
    btc_allocation := p.investimento_inicial * (p.btc_percentage / 100) }

/-- Loop sub-step 1: `ppr_allocation *= (1 + ppr_return)`,
`btc_allocation *= (1 + btc_return)`. -/
def aplicarRetornos (s : Estado) (ppr_return btc_return : ℚ) : Estado :=
  { ppr_allocation := s.ppr_allocation * (1 + ppr_return)
    btc_allocation := s.btc_allocation * (1 + btc_return) }

/-- Loop sub-step 2: the monthly contribution is added unconditionally on
every row, split by the target fractions:
`ppr += aportes_mensais * (1 - btc_percentage/100)`,
`btc += aportes_mensais * (btc_percentage/100)`. -/
def adicionarAporte (p : Parametros) (s : Estado) : Estado :=
  { ppr_allocation := s.ppr_allocation + p.aportes_mensais * (1 - p.btc_percentage / 100)
    btc_allocation := s.btc_allocation + p.aportes_mensais * (p.btc_percentage / 100) }

/-- Loop sub-step 3: `total = ppr + btc; ppr = total*(1 - pct/100);
btc = total*(pct/100)`. -/
def rebalancear (p : Parametros) (s : Estado) : Estado :=
  let total_value := s.ppr_allocation + s.btc_allocation
  { ppr_allocation := total_value * (1 - p.btc_percentage / 100)
    btc_allocation := total_value * (p.btc_percentage / 100) }

/-- One iteration of the loop body of `calcular_portfolio_hibrido` at row
`idx`: apply the two period returns, add the monthly contribution, and
rebalance when `should_rebalance(idx, rebalancing)` holds. -/
def passo (p : Parametros) (idx : ℕ) (s : Estado) (ppr_return btc_return : ℚ) : Estado :=
  let s1 := aplicarRetornos s ppr_return btc_return
  let s2 := adicionarAporte p s1
  if should_rebalance idx p.rebalancing then rebalancear p s2 else s2

/-- One row of `portfolio_values`.  The pseudocode appends a record holding
`data` and `valor = ppr_allocation + btc_allocation`; the response schema
additionally reports the per-asset values in scope at that moment
(`ppr_value`, `bitcoin_value`), recorded here as well. -/
structure Ponto where
  data : Data
  valor : ℚ
  ppr_value : ℚ
  btc_value : ℚ
deriving DecidableEq, Repr

/-- The simulation loop, already supplied with the pair of period returns
of each row: runs `passo` row by row and records one `Ponto` per row. -/
def simularAux (p : Parametros) : ℕ → Estado → List (Data × ℚ × ℚ) → List Ponto
  | _, _, [] => []
  | idx, s, (d, r) :: resto =>
      let s' := passo p idx s r.1 r.2
      ⟨d, s'.ppr_allocation + s'.btc_allocation, s'.ppr_allocation, s'.btc_allocation⟩
        :: simularAux p (idx + 1) s' resto

/-- Each aligned row paired with its two period returns (the columns
`ppr_return` and `btc_return` of `df`). -/
def comRetornos (df : List LinhaAlinhada) : List (Data × ℚ × ℚ) :=
  (df.map (·.data)).zip
    ((pct_change (df.map (·.valor_quota))).zip (pct_change (df.map (·.preco_eur))))

/-- Embeds `calcular_portfolio_hibrido`, trajectory part: align by inner merge,
derive per-row returns by `pct_change`, then walk the rows accumulating the
portfolio state and recording `portfolio_values`. -/
def calcular_portfolio_hibrido (p : Parametros)
    (ppr_data btc_data : List (Data × ℚ)) : List Ponto :=
  simularAux p 0 (estadoInicial p) (comRetornos (merge_inner ppr_data btc_data))

/-- Source: `investimento_total = investimento_inicial + (aportes_mensais * num_meses)`. -/
def investimento_total (investimento_inicial aportes_mensais num_meses : ℚ) : ℚ :=
  investimento_inicial + aportes_mensais * num_meses

/-- Source: `retorno_total_pct = ((valor_final - investimento_total) / investimento_total) * 100`. -/
def retorno_total_pct (valor_final investimento_inicial aportes_mensais num_meses : ℚ) : ℚ :=
  ((valor_final - investimento_total investimento_inicial aportes_mensais num_meses)
    / investimento_total investimento_inicial aportes_mensais num_meses) * 100

/-- Source: `anos = num_meses / 12`. -/
def anos (num_meses : ℚ) : ℚ := num_meses / 12

/-- Source: `retorno_anualizado_pct = (((valor_final / investimento_total) ** (1 / anos)) - 1) * 100`.
The exponentiation is real-valued (`Real.rpow`); note that the base of the
power is `investimento_total`, the contribution-inclusive amount defined two
lines above it in the source. -/
noncomputable def retorno_anualizado_pct
    (valor_final investimento_inicial aportes_mensais num_meses : ℚ) : ℝ :=
  (((valor_final : ℝ)
      / ((investimento_total investimento_inicial aportes_mensais num_meses : ℚ) : ℝ))
    ^ ((1 : ℝ) / ((anos num_meses : ℚ) : ℝ)) - 1) * 100

/-- Written from the specification words, for comparison with the code: the
annualized growth rate of `valor_final` over a given `base` amount,
`(valor_final / base) ^ (1 / anos) - 1`, as a percentage.  The specification
prescribes `base = investimento_inicial`. -/
noncomputable def cagr_especificado (valor_final base num_meses : ℚ) : ℝ :=
  (((valor_final : ℝ) / (base : ℝ)) ^ ((1 : ℝ) / ((anos num_meses : ℚ) : ℝ)) - 1) * 100

/-- Source: `retornos_mensais = pd.Series(portfolio_values).pct_change().dropna()`:
the percentage changes between consecutive recorded portfolio values (the
leading undefined entry dropped by `dropna`). -/
def retornos_mensais (valores : List ℚ) : List ℚ :=
  List.zipWith (fun prev cur => cur / prev - 1) valores valores.tail

/-- Arithmetic mean of a list of rationals. -/
def media (xs : List ℚ) : ℚ := xs.sum / (xs.length : ℚ)

/-- Sample variance (`ddof = 1`, the pandas default for `std`):
`Σ (x - mean)² / (n - 1)`. -/
def variancia_amostral (xs : List ℚ) : ℚ :=
  (xs.map (fun x => (x - media xs) ^ 2)).sum / ((xs.length : ℚ) - 1)

/-- Source: `volatilidade_pct = retornos_mensais.std() * np.sqrt(12) * 100`, the
sample standard deviation of the monthly returns, annualized. -/
noncomputable def volatilidade_pct (valores : List ℚ) : ℝ :=
  Real.sqrt ((variancia_amostral (retornos_mensais valores) : ℚ) : ℝ)
    * Real.sqrt 12 * 100

/-- Source: `taxa_livre_risco = 3.0` (percent per year, a fixed constant). -/
noncomputable def taxa_livre_risco : ℝ := 3

/-- Source: `sharpe_ratio = excess_return / volatilidade_pct` with
`excess_return = retorno_anualizado_pct - taxa_livre_risco`.  The source has
no guard on the divisor: dividing by a zero volatility does not produce a
finite number in floating point, which the embedding records as `none`. -/
noncomputable def sharpe_ratio (retorno_anualizado volatilidade : ℝ) : Option ℝ :=
  if volatilidade = 0 then none
  else some ((retorno_anualizado - taxa_livre_risco) / volatilidade)

/-- Helper for `cummax`: running maximum of a list, seeded with `m`. -/
def cummaxFrom (m : ℚ) : List ℚ → List ℚ
  | [] => []
  | y :: ys => max m y :: cummaxFrom (max m y) ys

/-- Embeds `valores.cummax()`: element `i` is the maximum of the first `i + 1`
values (the running peak, inclusive of the current value). -/
def cummax : List ℚ → List ℚ
  | [] => []
  | x :: xs => x :: cummaxFrom x xs

/-- Source: `drawdown = (valores - cummax) / cummax`, elementwise. -/
def drawdowns (valores : List ℚ) : List ℚ :=
  List.zipWith (fun v m => (v - m) / m) valores (cummax valores)

/-- Source: `max_drawdown_pct = drawdown.min() * 100` (the minimum of an empty
series is undefined in pandas; the embedding reads it as 0 there). -/
def max_drawdown_pct (valores : List ℚ) : ℚ :=
  ((drawdowns valores).min?.getD 0) * 100

/-- The metrics record assembled by `calcular_metricas`. -/
structure Metricas where
  retorno_total_pct : ℚ
  retorno_anualizado_pct : ℝ
  volatilidade_pct : ℝ
  sharpe_ratio : Option ℝ
  max_drawdown_pct : ℚ

/-- Embeds `calcular_metricas(portfolio_values, investimento_inicial,
aportes_mensais)`: every metric is a function of the recorded value series
and the two investment parameters; `num_meses` is the number of recorded
rows (the code treats each row as one month). -/
noncomputable def calcular_metricas
    (portfolio_values : List ℚ) (investimento_inicial aportes_mensais : ℚ) : Metricas :=
  let num_meses : ℚ := (portfolio_values.length : ℚ)
  let valor_final : ℚ := portfolio_values.getLast?.getD 0
  { retorno_total_pct :=
      retorno_total_pct valor_final investimento_inicial aportes_mensais num_meses
    retorno_anualizado_pct :=
      retorno_anualizado_pct valor_final investimento_inicial aportes_mensais num_meses
    volatilidade_pct := volatilidade_pct portfolio_values
    sharpe_ratio :=
      sharpe_ratio
        (retorno_anualizado_pct valor_final investimento_inicial aportes_mensais num_meses)
        (volatilidade_pct portfolio_values)
    max_drawdown_pct := max_drawdown_pct portfolio_values }

/-- Helper for `simular_fundo`: single-asset compounding over the rows. -/
def simular_fundo_aux (aportes_mensais : ℚ) : ℚ → List (Data × ℚ × ℚ) → List ℚ
  | _, [] => []
  | v, (_, r) :: resto =>
      let v' := v * (1 + r.1) + aportes_mensais
      v' :: simular_fundo_aux aportes_mensais v' resto

/-- Modelled from the spec: the fund-only single-asset simulation that the
boundary property compares against (the repository has no separate
single-asset routine).  The whole initial investment is held in the fund,
each row applies the fund return and adds the whole monthly contribution,
and the running value is recorded; it walks the same aligned series as the
hybrid simulation. -/
def simular_fundo (investimento_inicial aportes_mensais : ℚ)
    (ppr_data btc_data : List (Data × ℚ)) : List ℚ :=
  simular_fundo_aux aportes_mensais investimento_inicial
    (comRetornos (merge_inner ppr_data btc_data))

/-! ## Helper lemmas -/

theorem precoEm_isSome_iff (d : Data) (l : List (Data × ℚ)) :
    (precoEm d l).isSome = true ↔ d ∈ l.map Prod.fst := by
  induction l with
  | nil => simp [precoEm]
  | cons dp resto ih =>
      obtain ⟨d', p⟩ := dp
      by_cases h : d' = d
      · subst h
        simp [precoEm]
      · simp only [precoEm, if_neg h, List.map_cons, List.mem_cons, ih]
        constructor
        · exact Or.inr
        · rintro (rfl | hm)
          · exact absurd rfl h
          · exact hm

/-- Claim C1 (counterexample): the date 2020-02-01 is present in the PPR
series but missing from the Bitcoin series, and a prior Bitcoin value (10,
on 2020-01-01) exists for carry-forward; the inner merge nevertheless drops
the date from the aligned output instead of keeping it with the carried
value. -/
theorem claim_C1_counterexample :
    merge_inner [((⟨2020, 1, 1⟩ : Data), (1 : ℚ)), (⟨2020, 2, 1⟩, 2)]
        [((⟨2020, 1, 1⟩ : Data), (10 : ℚ))]
      = [⟨⟨2020, 1, 1⟩, 1, 10⟩]
    ∧ precoEm ⟨2020, 1, 1⟩ [((⟨2020, 1, 1⟩ : Data), (10 : ℚ))] = some 10
    ∧ (⟨2020, 2, 1⟩ : Data) ∉
        (merge_inner [((⟨2020, 1, 1⟩ : Data), (1 : ℚ)), (⟨2020, 2, 1⟩, 2)]
          [((⟨2020, 1, 1⟩ : Data), (10 : ℚ))]).map (·.data) := by
  refine ⟨?_, ?_, ?_⟩ <;> simp [merge_inner, precoEm]

/-- Claim C1 (amended): a date appears in the aligned output if and only if
it appears in both input series; a date present in one series but missing in
the other is always dropped by the inner merge, whether or not a prior value
would be available for carry-forward. -/
theorem claim_C1 (ppr_data btc_data : List (Data × ℚ)) (d : Data) :
    d ∈ (merge_inner ppr_data btc_data).map (·.data)
      ↔ d ∈ ppr_data.map Prod.fst ∧ d ∈ btc_data.map Prod.fst := by
  induction ppr_data with
  | nil => simp [merge_inner]
  | cons dp resto ih =>
      obtain ⟨d', p⟩ := dp
      cases h : precoEm d' btc_data with
      | some q =>
          have hd' : d' ∈ btc_data.map Prod.fst :=
            (precoEm_isSome_iff d' btc_data).1 (by simp [h])
          simp only [merge_inner, h, List.map_cons, List.mem_cons, ih]
          constructor
          · rintro (rfl | ⟨h1, h2⟩)
            · exact ⟨Or.inl rfl, hd'⟩
            · exact ⟨Or.inr h1, h2⟩
          · rintro ⟨rfl | h1, h2⟩
            · exact Or.inl rfl
            · exact Or.inr ⟨h1, h2⟩
      | none =>
          have hd' : d' ∉ btc_data.map Prod.fst := by
            intro hmem
            have := (precoEm_isSome_iff d' btc_data).2 hmem
            simp [h] at this
          simp only [merge_inner, h, List.map_cons, List.mem_cons, ih]
          constructor
          · rintro ⟨h1, h2⟩
            exact ⟨Or.inr h1, h2⟩
          · rintro ⟨rfl | h1, h2⟩
            · exact absurd h2 hd'
            · exact ⟨h1, h2⟩

theorem soma_passo (p : Parametros) (idx : ℕ) (s : Estado) (r1 r2 : ℚ) :
    (passo p idx s r1 r2).ppr_allocation + (passo p idx s r1 r2).btc_allocation
      = (aplicarRetornos s r1 r2).ppr_allocation
        + (aplicarRetornos s r1 r2).btc_allocation + p.aportes_mensais := by
  simp only [passo, adicionarAporte, rebalancear]
  split <;> dsimp <;> ring

/-- Claim C4 (counterexample): two aligned observations fall inside the same
calendar month (2020-01-01 and 2020-01-15); with flat prices every increase
of the recorded value is a contribution, and the run with
`aportes_mensais = 100` records values 1100 and then 1200 from an initial
1000 — the contribution was added twice inside one calendar month, not once
on a monthly boundary. -/
theorem claim_C4_counterexample :
    ((calcular_portfolio_hibrido ⟨30, 1000, 100, .nunca⟩
        [((⟨2020, 1, 1⟩ : Data), (5 : ℚ)), (⟨2020, 1, 15⟩, 5)]
        [((⟨2020, 1, 1⟩ : Data), (20000 : ℚ)), (⟨2020, 1, 15⟩, 20000)]).map (·.valor)
      = [1100, 1200])
    ∧ Data.mesCalendario ⟨2020, 1, 1⟩ = Data.mesCalendario ⟨2020, 1, 15⟩ := by
  constructor
  · norm_num [calcular_portfolio_hibrido, merge_inner, precoEm, comRetornos, pct_change,
      simularAux, passo, should_rebalance, aplicarRetornos, adicionarAporte, rebalancear,
      estadoInicial, List.zip_cons_cons]
  · rfl

/-- Claim C4 (amended): the monthly contribution is added at every aligned
observation (the code treats each row of the merged series as one month and
has no calendar guard), and the added amount is split by the fixed target
allocation fraction — `aportes_mensais * (1 - pct/100)` to the fund and
`aportes_mensais * (pct/100)` to Bitcoin — regardless of the current drifted
allocation held in the state; every step therefore injects exactly
`aportes_mensais` into the recorded total. -/
theorem claim_C4 (p : Parametros) (idx : ℕ) (s : Estado) (r1 r2 : ℚ) :
    ((adicionarAporte p (aplicarRetornos s r1 r2)).ppr_allocation
        - (aplicarRetornos s r1 r2).ppr_allocation
      = p.aportes_mensais * (1 - p.btc_percentage / 100))
    ∧ ((adicionarAporte p (aplicarRetornos s r1 r2)).btc_allocation
        - (aplicarRetornos s r1 r2).btc_allocation
      = p.aportes_mensais * (p.btc_percentage / 100))
    ∧ ((passo p idx s r1 r2).ppr_allocation + (passo p idx s r1 r2).btc_allocation
      = (aplicarRetornos s r1 r2).ppr_allocation
        + (aplicarRetornos s r1 r2).btc_allocation + p.aportes_mensais) := by
  refine ⟨?_, ?_, soma_passo p idx s r1 r2⟩ <;> simp [adicionarAporte]

/-- Claim C5: whenever rebalancing is due at a step, the simulator resets
the fund allocation to `total * (1 - pct/100)` and the Bitcoin allocation to
`total * (pct/100)`, where `total` is the pre-reset sum (after returns and
contribution); consequently, whenever that total is nonzero, the
post-rebalance allocation fractions equal the target fractions exactly. -/
theorem claim_C5 (p : Parametros) (idx : ℕ) (s : Estado) (r1 r2 : ℚ)
    (h : should_rebalance idx p.rebalancing = true) :
    ((passo p idx s r1 r2).ppr_allocation
      = ((adicionarAporte p (aplicarRetornos s r1 r2)).ppr_allocation
          + (adicionarAporte p (aplicarRetornos s r1 r2)).btc_allocation)
        * (1 - p.btc_percentage / 100))
    ∧ ((passo p idx s r1 r2).btc_allocation
      = ((adicionarAporte p (aplicarRetornos s r1 r2)).ppr_allocation
          + (adicionarAporte p (aplicarRetornos s r1 r2)).btc_allocation)
        * (p.btc_percentage / 100))
    ∧ ((adicionarAporte p (aplicarRetornos s r1 r2)).ppr_allocation
          + (adicionarAporte p (aplicarRetornos s r1 r2)).btc_allocation ≠ 0 →
        (passo p idx s r1 r2).btc_allocation
            / ((passo p idx s r1 r2).ppr_allocation + (passo p idx s r1 r2).btc_allocation)
          = p.btc_percentage / 100
        ∧ (passo p idx s r1 r2).ppr_allocation
            / ((passo p idx s r1 r2).ppr_allocation + (passo p idx s r1 r2).btc_allocation)
          = 1 - p.btc_percentage / 100) := by
  have hpasso : passo p idx s r1 r2
      = rebalancear p (adicionarAporte p (aplicarRetornos s r1 r2)) := by
    simp [passo, h]
  set s2 := adicionarAporte p (aplicarRetornos s r1 r2) with hs2
  set t := s2.ppr_allocation + s2.btc_allocation with ht
  rw [hpasso]
  refine ⟨rfl, rfl, fun hne => ?_⟩
  have hsum : (rebalancear p s2).ppr_allocation + (rebalancear p s2).btc_allocation = t := by
    simp only [rebalancear]
    ring
  rw [hsum]
  constructor
  · show t * (p.btc_percentage / 100) / t = p.btc_percentage / 100
    exact mul_div_cancel_left₀ _ hne
  · show t * (1 - p.btc_percentage / 100) / t = 1 - p.btc_percentage / 100
    exact mul_div_cancel_left₀ _ hne

/-- Claim C5 (witness): a concrete rebalance step with target 30 % Bitcoin,
a drifted state and a nonzero total, after which the Bitcoin fraction is
exactly 30/100. -/
theorem claim_C5_witness :
    (passo ⟨30, 1000, 100, .mensal⟩ 1 ⟨700, 300⟩ 0 0).btc_allocation
        / ((passo ⟨30, 1000, 100, .mensal⟩ 1 ⟨700, 300⟩ 0 0).ppr_allocation
            + (passo ⟨30, 1000, 100, .mensal⟩ 1 ⟨700, 300⟩ 0 0).btc_allocation)
      = 30 / 100 :=
  ((claim_C5 ⟨30, 1000, 100, .mensal⟩ 1 ⟨700, 300⟩ 0 0 (by decide)).2.2
    (by norm_num [adicionarAporte, aplicarRetornos])).1

/-- Claim C9: the rebalancing reset preserves the total — the sum of the two
allocations immediately after `rebalancear` equals the sum immediately
before it, and on any step where rebalancing is due the step result has the
same total as the post-contribution state it reset. -/
theorem claim_C9 (p : Parametros) (idx : ℕ) (s : Estado) (r1 r2 : ℚ) :
    ((rebalancear p s).ppr_allocation + (rebalancear p s).btc_allocation
      = s.ppr_allocation + s.btc_allocation)
    ∧ (should_rebalance idx p.rebalancing = true →
        (passo p idx s r1 r2).ppr_allocation + (passo p idx s r1 r2).btc_allocation
          = (adicionarAporte p (aplicarRetornos s r1 r2)).ppr_allocation
            + (adicionarAporte p (aplicarRetornos s r1 r2)).btc_allocation) := by
  constructor
  · simp only [rebalancear]
    ring
  · intro h
    simp only [passo, if_pos h, rebalancear, adicionarAporte, aplicarRetornos]
    ring

/-- Claim C9 (witness): a concrete due-rebalance step whose total matches
the pre-reset total. -/
theorem claim_C9_witness :
    (passo ⟨30, 1000, 100, .mensal⟩ 1 ⟨700, 300⟩ (1/10) (-1/10)).ppr_allocation
        + (passo ⟨30, 1000, 100, .mensal⟩ 1 ⟨700, 300⟩ (1/10) (-1/10)).btc_allocation
      = (adicionarAporte ⟨30, 1000, 100, .mensal⟩
            (aplicarRetornos ⟨700, 300⟩ (1/10) (-1/10))).ppr_allocation
        + (adicionarAporte ⟨30, 1000, 100, .mensal⟩
            (aplicarRetornos ⟨700, 300⟩ (1/10) (-1/10))).btc_allocation :=
  (claim_C9 ⟨30, 1000, 100, .mensal⟩ 1 ⟨700, 300⟩ (1/10) (-1/10)).2 (by decide)

/-- Claim C6: at every recorded trajectory point the fund value plus the
Bitcoin value equals the recorded total — the tolerance is zero in exact
arithmetic. -/
theorem claim_C6 (p : Parametros) (ppr_data btc_data : List (Data × ℚ)) :
    (calcular_portfolio_hibrido p ppr_data btc_data).map
        (fun pt => pt.ppr_value + pt.btc_value)
      = (calcular_portfolio_hibrido p ppr_data btc_data).map (·.valor) := by
  unfold calcular_portfolio_hibrido
  generalize comRetornos (merge_inner ppr_data btc_data) = rows
  suffices h : ∀ (rows : List (Data × ℚ × ℚ)) (idx : ℕ) (s : Estado),
      (simularAux p idx s rows).map (fun pt => pt.ppr_value + pt.btc_value)
        = (simularAux p idx s rows).map (·.valor) by
    exact h rows 0 (estadoInicial p)
  intro rows
  induction rows with
  | nil => intro idx s; rfl
  | cons row resto ih =>
      intro idx s
      obtain ⟨d, r⟩ := row
      simp only [simularAux, List.map_cons, List.cons.injEq]
      exact ⟨trivial, ih (idx + 1) _⟩

theorem drawdowns_from_nonpos (l : List ℚ) :
    ∀ (m : ℚ), 0 < m → (∀ v ∈ l, 0 < v) →
      ∀ dd ∈ List.zipWith (fun v c => (v - c) / c) l (cummaxFrom m l), dd ≤ 0 := by
  induction l with
  | nil => intro m _ _ dd hdd; simp at hdd
  | cons y ys ih =>
      intro m hm hl dd hdd
      simp only [cummaxFrom, List.zipWith_cons_cons, List.mem_cons] at hdd
      rcases hdd with rfl | hdd
      · have h1 : y - max m y ≤ 0 := sub_nonpos.2 (le_max_right m y)
        have h2 : (0 : ℚ) ≤ max m y := le_trans hm.le (le_max_left m y)
        exact div_nonpos_of_nonpos_of_nonneg h1 h2
      · exact ih (max m y) (lt_of_lt_of_le hm (le_max_left m y))
          (fun v hv => hl v (List.mem_cons_of_mem y hv)) dd hdd

/-- Claim C7: when all recorded values are positive, every per-point
drawdown `(valor - running_peak) / running_peak` is nonpositive — the
running peak `cummax` is taken inclusive of the current value, so the
numerator never exceeds zero while the denominator stays positive. -/
theorem claim_C7 (valores : List ℚ) (h : ∀ v ∈ valores, 0 < v) :
    ∀ dd ∈ drawdowns valores, dd ≤ 0 := by
  cases valores with
  | nil => intro dd hdd; simp [drawdowns, cummax] at hdd
  | cons x xs =>
      intro dd hdd
      simp only [drawdowns, cummax, List.zipWith_cons_cons, List.mem_cons] at hdd
      rcases hdd with rfl | hdd
      · simp
      · exact drawdowns_from_nonpos xs x (h x (List.mem_cons_self x xs))
          (fun v hv => h v (List.mem_cons_of_mem x hv)) dd hdd

/-- Claim C7 (witness): for the concrete positive value series
`[100, 50]` the second drawdown entry, `-1/2`, is indeed nonpositive. -/
theorem claim_C7_witness : (-1/2 : ℚ) ≤ 0 :=
  claim_C7 [100, 50] (by norm_num) (-1/2)
    (by norm_num [drawdowns, cummax, cummaxFrom])

/-- Claim C2 (counterexample): one simulated year (12 months) with initial
investment 10000, monthly contribution 100 and final value 22400.  The code
reports `((22400/11200)^1 - 1)*100 = 100`, while the claimed formula with
`initial_investment` as the base gives `((22400/10000)^1 - 1)*100 = 124`. -/
theorem claim_C2_counterexample :
    retorno_anualizado_pct 22400 10000 100 12 ≠ cagr_especificado 22400 10000 12 := by
  unfold retorno_anualizado_pct cagr_especificado investimento_total anos
  push_cast
  norm_num

/-- Claim C2 (amended): the reported annualized return is the CAGR formula
with `investimento_total = investimento_inicial + aportes_mensais * num_meses`
(the contribution-inclusive amount) as the base, not `investimento_inicial`;
the two agree exactly when there are no monthly contributions. -/
theorem claim_C2 (valor_final investimento_inicial aportes_mensais num_meses : ℚ) :
    (retorno_anualizado_pct valor_final investimento_inicial aportes_mensais num_meses
      = cagr_especificado valor_final
          (investimento_total investimento_inicial aportes_mensais num_meses) num_meses)
    ∧ (aportes_mensais = 0 →
        retorno_anualizado_pct valor_final investimento_inicial aportes_mensais num_meses
          = cagr_especificado valor_final investimento_inicial num_meses) := by
  constructor
  · rfl
  · intro h
    subst h
    unfold retorno_anualizado_pct cagr_especificado investimento_total
    norm_num

/-- Claim C2 (witness): with no contributions the code agrees with the
specification formula at a concrete input. -/
theorem claim_C2_witness :
    retorno_anualizado_pct 100 50 0 24 = cagr_especificado 100 50 24 :=
  (claim_C2 100 50 0 24).2 rfl

/-- Claim C3 (counterexample): a flat trajectory has computed volatility 0,
and on it the unguarded division of the code does not produce the value 0
(it produces no finite value at all, `none` in the embedding). -/
theorem claim_C3_counterexample :
    volatilidade_pct [1000, 1000, 1000] = 0
    ∧ sharpe_ratio (retorno_anualizado_pct 1000 1000 0 3)
        (volatilidade_pct [1000, 1000, 1000]) ≠ some 0 := by
  have hv : volatilidade_pct [1000, 1000, 1000] = 0 := by
    norm_num [volatilidade_pct, variancia_amostral, retornos_mensais, media]
  refine ⟨hv, ?_⟩
  rw [hv]
  simp [sharpe_ratio]

/-- Claim C3 (amended): the Sharpe computation has no zero-volatility
branch: at volatility 0 the division is undefined (non-finite in floating
point, `none` here) rather than 0, and at any nonzero volatility it returns
`(retorno_anualizado - taxa_livre_risco) / volatilidade`; any finite value
it does return satisfies `s * volatilidade = retorno_anualizado -
taxa_livre_risco`. -/
theorem claim_C3 (r v : ℝ) :
    (v = 0 → sharpe_ratio r v = none)
    ∧ (v ≠ 0 → sharpe_ratio r v = some ((r - taxa_livre_risco) / v))
    ∧ (∀ s, sharpe_ratio r v = some s → s * v = r - taxa_livre_risco) := by
  refine ⟨fun h => by simp [sharpe_ratio, h], fun h => by simp [sharpe_ratio, h], ?_⟩
  intro s hs
  by_cases h : v = 0
  · simp [sharpe_ratio, h] at hs
  · simp only [sharpe_ratio, if_neg h, Option.some.injEq] at hs
    rw [← hs]
    exact div_mul_cancel₀ _ h

/-- Claim C3 (witness): at the nonzero volatility 2 the code returns the
finite Sharpe value `(5 - taxa_livre_risco) / 2`. -/
theorem claim_C3_witness :
    sharpe_ratio 5 2 = some ((5 - taxa_livre_risco) / 2) :=
  (claim_C3 5 2).2.1 (by norm_num)

theorem estadoInicial_pct0 (investimento_inicial aportes_mensais : ℚ) (fr : Rebalancing) :
    estadoInicial ⟨0, investimento_inicial, aportes_mensais, fr⟩
      = ⟨investimento_inicial, 0⟩ := by
  simp [estadoInicial]

theorem passo_pct0 (investimento_inicial aportes_mensais : ℚ) (fr : Rebalancing)
    (idx : ℕ) (v r1 r2 : ℚ) :
    passo ⟨0, investimento_inicial, aportes_mensais, fr⟩ idx ⟨v, 0⟩ r1 r2
      = ⟨v * (1 + r1) + aportes_mensais, 0⟩ := by
  simp only [passo, aplicarRetornos, adicionarAporte, rebalancear]
  split <;> simp [Estado.mk.injEq]

theorem sim_pct0 (investimento_inicial aportes_mensais : ℚ) (fr : Rebalancing)
    (rows : List (Data × ℚ × ℚ)) :
    ∀ (idx : ℕ) (v : ℚ),
      ((simularAux ⟨0, investimento_inicial, aportes_mensais, fr⟩ idx ⟨v, 0⟩ rows).map
          (·.valor)
        = simular_fundo_aux aportes_mensais v rows)
      ∧ ((simularAux ⟨0, investimento_inicial, aportes_mensais, fr⟩ idx ⟨v, 0⟩ rows).map
          (·.btc_value)
        = List.replicate rows.length 0) := by
  induction rows with
  | nil => intro idx v; exact ⟨rfl, rfl⟩
  | cons row resto ih =>
      intro idx v
      obtain ⟨d, r⟩ := row
      have ih' := ih (idx + 1) (v * (1 + r.1) + aportes_mensais)
      simp [simularAux, simular_fundo_aux, passo_pct0, List.replicate_succ,
        ih'.1, ih'.2]

/-- Claim C8: with `btc_percentage = 0` the trajectory holds a zero Bitcoin
value at every point, its recorded values coincide exactly with the
fund-only single-asset simulation on the same aligned series and
parameters, and therefore the computed metrics coincide as well. -/
theorem claim_C8 (investimento_inicial aportes_mensais : ℚ) (fr : Rebalancing)
    (ppr_data btc_data : List (Data × ℚ)) :
    ((calcular_portfolio_hibrido ⟨0, investimento_inicial, aportes_mensais, fr⟩
          ppr_data btc_data).map (·.btc_value)
      = List.replicate
          (calcular_portfolio_hibrido ⟨0, investimento_inicial, aportes_mensais, fr⟩
            ppr_data btc_data).length 0)
    ∧ ((calcular_portfolio_hibrido ⟨0, investimento_inicial, aportes_mensais, fr⟩
          ppr_data btc_data).map (·.valor)
      = simular_fundo investimento_inicial aportes_mensais ppr_data btc_data)
    ∧ (calcular_metricas
        ((calcular_portfolio_hibrido ⟨0, investimento_inicial, aportes_mensais, fr⟩
          ppr_data btc_data).map (·.valor)) investimento_inicial aportes_mensais
      = calcular_metricas
          (simular_fundo investimento_inicial aportes_mensais ppr_data btc_data)
          investimento_inicial aportes_mensais) := by
  have h := sim_pct0 investimento_inicial aportes_mensais fr
    (comRetornos (merge_inner ppr_data btc_data)) 0 investimento_inicial
  have hlen :
      (calcular_portfolio_hibrido ⟨0, investimento_inicial, aportes_mensais, fr⟩
          ppr_data btc_data).length
        = (comRetornos (merge_inner ppr_data btc_data)).length := by
    unfold calcular_portfolio_hibrido
    rw [estadoInicial_pct0]
    rw [← List.length_map _ (·.btc_value), h.2, List.length_replicate]
  have hbtc :
      (calcular_portfolio_hibrido ⟨0, investimento_inicial, aportes_mensais, fr⟩
          ppr_data btc_data).map (·.btc_value)
        = List.replicate
            (calcular_portfolio_hibrido ⟨0, investimento_inicial, aportes_mensais, fr⟩
              ppr_data btc_data).length 0 := by
    rw [hlen]
    unfold calcular_portfolio_hibrido
    rw [estadoInicial_pct0]
    exact h.2
  have hval :
      (calcular_portfolio_hibrido ⟨0, investimento_inicial, aportes_mensais, fr⟩
          ppr_data btc_data).map (·.valor)
        = simular_fundo investimento_inicial aportes_mensais ppr_data btc_data := by
    unfold calcular_portfolio_hibrido simular_fundo
    rw [estadoInicial_pct0]
    exact h.1
  exact ⟨hbtc, hval, by rw [hval]⟩


theorem should_rebalance_zero (rb : Rebalancing) : should_rebalance 0 rb = false := by
  cases rb <;> rfl

theorem precoEm_const (b0 : ℚ) (es : List Data) (d : Data) (hd : d ∈ es) :
    precoEm d (es.map (fun e => (e, b0))) = some b0 := by
  induction es with
  | nil => cases hd
  | cons e es ih =>
      by_cases h : e = d
      · simp [precoEm, h]
      · rcases List.mem_cons.mp hd with rfl | hm
        · exact absurd rfl h
        · simp [precoEm, h, ih hm]

theorem merge_const (q0 b0 : ℚ) (ds es : List Data) (h : ∀ d ∈ ds, d ∈ es) :
    merge_inner (ds.map (fun d => (d, q0))) (es.map (fun e => (e, b0)))
      = ds.map (fun d => ⟨d, q0, b0⟩) := by
  induction ds with
  | nil => rfl
  | cons d ds ih =>
      simp only [List.map_cons, merge_inner,
        precoEm_const b0 es d (h d (List.mem_cons_self d ds))]
      exact congrArg _ (ih fun x hx => h x (List.mem_cons_of_mem d hx))

theorem zip_ret_const (q0 : ℚ) (h : q0 ≠ 0) :
    ∀ (xs : List ℚ) (x : ℚ), x = q0 → (∀ y ∈ xs, y = q0) →
      List.zipWith (fun prev cur => cur / prev - 1) (x :: xs) xs
        = List.replicate xs.length 0 := by
  intro xs
  induction xs with
  | nil => intros; rfl
  | cons y ys ih =>
      intro x hx hall
      have hy : y = q0 := hall y (List.mem_cons_self y ys)
      have hall' : ∀ z ∈ ys, z = q0 := fun z hz => hall z (List.mem_cons_of_mem y hz)
      have hhead : y / x - 1 = (0 : ℚ) := by rw [hx, hy, div_self h]; ring
      simp only [List.zipWith_cons_cons, List.length_cons, List.replicate_succ, hhead]
      exact congrArg (List.cons 0) (ih y hy hall')

theorem pct_change_const (q0 : ℚ) (h : q0 ≠ 0) (l : List ℚ) (hall : ∀ y ∈ l, y = q0) :
    pct_change l = List.replicate l.length 0 := by
  cases l with
  | nil => rfl
  | cons x xs =>
      simp only [pct_change, List.length_cons, List.replicate_succ]
      exact congrArg (List.cons 0) (zip_ret_const q0 h xs x
        (hall x (List.mem_cons_self x xs))
        (fun y hy => hall y (List.mem_cons_of_mem x hy)))

theorem zip_replicate_replicate {α β : Type} (a : α) (b : β) :
    ∀ n, (List.replicate n a).zip (List.replicate n b) = List.replicate n (a, b) := by
  intro n
  induction n with
  | zero => rfl
  | succ n ih => simp [List.replicate_succ, ih]

theorem zip_self_replicate {α β : Type} (c : β) :
    ∀ (l : List α), l.zip (List.replicate l.length c) = l.map (fun a => (a, c)) := by
  intro l
  induction l with
  | nil => rfl
  | cons a l ih => simp [List.replicate_succ, ih]

theorem comRetornos_const (datas : List Data) (q0 b0 : ℚ) (hq : q0 ≠ 0) (hb : b0 ≠ 0) :
    comRetornos (datas.map (fun d => ⟨d, q0, b0⟩))
      = datas.map (fun d => (d, (0 : ℚ), (0 : ℚ))) := by
  unfold comRetornos
  have h1 : (datas.map (fun d => (⟨d, q0, b0⟩ : LinhaAlinhada))).map (·.data) = datas := by
    simp [List.map_map, Function.comp_def]
  have h2 : (datas.map (fun d => (⟨d, q0, b0⟩ : LinhaAlinhada))).map (·.valor_quota)
      = List.replicate datas.length q0 := by
    simp [List.map_map, Function.comp_def, List.map_const']
  have h3 : (datas.map (fun d => (⟨d, q0, b0⟩ : LinhaAlinhada))).map (·.preco_eur)
      = List.replicate datas.length b0 := by
    simp [List.map_map, Function.comp_def, List.map_const']
  rw [h1, h2, h3]
  rw [pct_change_const q0 hq _ (fun y hy => List.eq_of_mem_replicate hy)]
  rw [pct_change_const b0 hb _ (fun y hy => List.eq_of_mem_replicate hy)]
  rw [List.length_replicate, List.length_replicate, zip_replicate_replicate]
  rw [← zip_self_replicate ((0 : ℚ), (0 : ℚ)) datas]

theorem map_range_succ_shift (n : ℕ) (f : ℕ → ℚ) :
    (List.range (n + 1)).map f = f 0 :: (List.range n).map (fun k => f (k + 1)) := by
  rw [List.range_succ_eq_map, List.map_cons, List.map_map]
  rfl

theorem sim_zero_rows (p : Parametros) (ds : List Data) :
    ∀ (idx : ℕ) (s : Estado),
      (simularAux p idx s (ds.map (fun d => (d, (0 : ℚ), (0 : ℚ))))).map (·.valor)
        = (List.range ds.length).map
            (fun (k : ℕ) => s.ppr_allocation + s.btc_allocation
              + ((k : ℚ) + 1) * p.aportes_mensais) := by
  induction ds with
  | nil => intros; rfl
  | cons d ds ih =>
      intro idx s
      have hsum : (passo p idx s 0 0).ppr_allocation + (passo p idx s 0 0).btc_allocation
          = s.ppr_allocation + s.btc_allocation + p.aportes_mensais := by
        rw [soma_passo]
        simp only [aplicarRetornos]
        ring
      simp only [List.map_cons, simularAux, List.length_cons]
      rw [map_range_succ_shift]
      congr 1
      · rw [hsum]
        push_cast
        ring
      · rw [ih (idx + 1) (passo p idx s 0 0)]
        apply List.map_congr_left
        intro k _
        rw [hsum]
        push_cast
        ring

/-- Claim C10: the loop adds the monthly contribution at every aligned
observation including the first — for any input series the first recorded
value is `investimento_inicial + aportes_mensais`, and on flat price series
(where nothing changes through returns, for any rebalancing frequency) the
value recorded at the k-th point is exactly
`investimento_inicial + (k+1) * aportes_mensais`: after n points the cash
injected is the initial investment plus n contributions. -/
theorem claim_C10 :
    (∀ (p : Parametros) (ppr_data btc_data : List (Data × ℚ)),
        ((calcular_portfolio_hibrido p ppr_data btc_data).map (·.valor)).head?
          = ((merge_inner ppr_data btc_data).head?).map
              (fun _ => p.investimento_inicial + p.aportes_mensais))
    ∧ (∀ (p : Parametros) (datas : List Data) (q0 b0 : ℚ), q0 ≠ 0 → b0 ≠ 0 →
        (calcular_portfolio_hibrido p (datas.map (fun d => (d, q0)))
            (datas.map (fun d => (d, b0)))).map (·.valor)
          = (List.range datas.length).map
              (fun (k : ℕ) => p.investimento_inicial
                + ((k : ℚ) + 1) * p.aportes_mensais)) := by
  constructor
  · intro p ppr_data btc_data
    unfold calcular_portfolio_hibrido
    cases hdf : merge_inner ppr_data btc_data with
    | nil => simp [comRetornos, simularAux]
    | cons l df' =>
        simp only [comRetornos, List.map_cons, pct_change, List.zip_cons_cons,
          simularAux, List.head?_cons]
        have hmap : Option.map
            (fun _ : LinhaAlinhada => p.investimento_inicial + p.aportes_mensais) (some l)
              = some (p.investimento_inicial + p.aportes_mensais) := rfl
        rw [hmap, Option.some.injEq]
        have hneg : ¬ should_rebalance 0 p.rebalancing = true := by
          simp [should_rebalance_zero]
        simp only [passo, if_neg hneg, adicionarAporte, aplicarRetornos, estadoInicial]
        ring
  · intro p datas q0 b0 hq hb
    unfold calcular_portfolio_hibrido
    rw [merge_const q0 b0 datas datas (fun d hd => hd)]
    rw [comRetornos_const datas q0 b0 hq hb]
    rw [sim_zero_rows p datas 0 (estadoInicial p)]
    apply List.map_congr_left
    intro k _
    simp only [estadoInicial]
    ring

/-- Claim C10 (witness): a concrete flat two-row series with initial
investment 1000 and contribution 100 records the values prescribed by the
theorem (1100 on the first row, 1200 on the second). -/
theorem claim_C10_witness :
    (calcular_portfolio_hibrido ⟨30, 1000, 100, .nunca⟩
        (([⟨2020, 1, 1⟩, ⟨2020, 2, 1⟩] : List Data).map (fun d => (d, (1 : ℚ))))
        (([⟨2020, 1, 1⟩, ⟨2020, 2, 1⟩] : List Data).map (fun d => (d, (1 : ℚ))))).map
        (·.valor)
      = (List.range ([⟨2020, 1, 1⟩, ⟨2020, 2, 1⟩] : List Data).length).map
          (fun (k : ℕ) => 1000 + ((k : ℚ) + 1) * 100) :=
  claim_C10.2 ⟨30, 1000, 100, .nunca⟩ [⟨2020, 1, 1⟩, ⟨2020, 2, 1⟩] 1 1
    (by norm_num) (by norm_num)
